import Mathlib

/-!
Shallow embedding of the maternal-child-health-equity core
(src/data_processing.py and src/api_fetcher.py) and proofs about it.

Modelling conventions:
* a pandas scalar that may be missing (NaN / None) is an `Option` value;
* float arithmetic is modelled with `ℚ` (exact); comparisons against a
  standard deviation (a square root) are embedded square-free: for a
  nonnegative threshold t and positive variance v, |d| / sqrt v > t is
  encoded as d ^ 2 > t ^ 2 * v, and the connection to the real-number
  inequality is proved as a theorem;
* elementwise float operations that produce NaN (division 0 / 0 when the
  standard deviation is zero, or a NaN standard deviation when ddof = 1
  leaves no degrees of freedom) compare false against any threshold, as
  in numpy, and are embedded as explicit `false` branches;
* Python strings are worked on as `List Char`, so that every definition
  reduces inside the kernel; a DataFrame is a list of structured rows
  when every claim about the function only concerns present columns, and
  column presence is modelled explicitly where a claim is about a
  missing column.
-/

section RatReducible

/- The Batteries rational primitives are irreducible by default, which
blocks elaboration-time evaluation of concrete summaries; they are exact
integer-fraction operations, safe to unfold. -/
attribute [local semireducible] Rat.add Rat.mul Rat.inv Rat.sub

namespace MCHD

/-! ### Character-list string primitives -/

/-- Bool test that p is a prefix of l (char lists). -/
def isPrefixB : List Char → List Char → Bool
  | [], _ => true
  | _ :: _, [] => false
  | a :: p, b :: l => a == b && isPrefixB p l

/-- Bool test that pat occurs as a contiguous substring of hay:
Python in. -/
def hasInfixB (pat : List Char) : List Char → Bool
  | [] => pat.isEmpty
  | c :: t => isPrefixB pat (c :: t) || hasInfixB pat t

/-- Python str.replace with a one-character pattern and empty replacement:
every occurrence of the character is removed. -/
def removeChar (ch : Char) (cs : List Char) : List Char :=
  cs.filter (fun c => c != ch)

/-- Python str.strip(): drop leading and trailing whitespace. -/
def stripChars (cs : List Char) : List Char :=
  ((cs.dropWhile Char.isWhitespace).reverse.dropWhile Char.isWhitespace).reverse

/-- Python str.lower() over the characters. -/
def lowerChars (cs : List Char) : List Char :=
  cs.map Char.toLower

/-- s contains pat, case preserved: Python pat in s. -/
def strContains (s : List Char) (pat : String) : Bool :=
  hasInfixB pat.toList s

/-! ### Scalars and rows -/

/-- A Python scalar as fed to clean_currency: missing (None / NaN),
a string, or a number. -/
inductive PyScalar where
  | null : PyScalar
  | str (s : String) : PyScalar
  | num (q : ℚ) : PyScalar
deriving DecidableEq, Repr

/-- One grant record after load_grant_data: the Grant Number and State
columns as strings, the program name (nullable), and the normalized
Awardee Amount (`none` is NaN). -/
structure GrantRow where
  grantNumber : String
  state : String
  programName : Option String
  amount : Option ℚ
deriving DecidableEq, Repr

/-! ### Currency Normalizer (clean_currency, data_processing.py lines 10-29) -/

/-- Numeric value of a list of decimal digit characters (most significant
first), as accumulated by a positional parse. -/
def natOfDigits (ds : List Char) : ℕ :=
  ds.foldl (fun a c => 10 * a + (c.toNat - 48)) 0

/-- True when the list is nonempty and all characters are decimal digits. -/
def allDigits (ds : List Char) : Bool :=
  !ds.isEmpty && ds.all Char.isDigit

/-- Parse an unsigned decimal mantissa: digits, optionally a point and more
digits, with at least one digit overall (accepting forms like 12, 12., .5
that Python float accepts). -/
def parseMantissa (cs : List Char) : Option ℚ :=
  let ip := cs.takeWhile Char.isDigit
  let rest := cs.dropWhile Char.isDigit
  match rest with
  | [] => if ip.isEmpty then none else some (natOfDigits ip)
  | '.' :: r2 =>
    let fp := r2.takeWhile Char.isDigit
    let r3 := r2.dropWhile Char.isDigit
    if r3.isEmpty then
      if ip.isEmpty && fp.isEmpty then none
      else some ((natOfDigits ip : ℚ) + (natOfDigits fp : ℚ) / (10 ^ fp.length))
    else none
  | _ => none

/-- Parse an optionally signed decimal exponent with at least one digit,
as a sign flag and magnitude. -/
def parseExponent (cs : List Char) : Option (Bool × ℕ) :=
  match cs with
  | '+' :: r => if allDigits r then some (false, natOfDigits r) else none
  | '-' :: r => if allDigits r then some (true, natOfDigits r) else none
  | r => if allDigits r then some (false, natOfDigits r) else none

/-- Scale a rational by a signed power of ten. -/
def scalePow10 (q : ℚ) : Bool × ℕ → ℚ
  | (false, e) => q * 10 ^ e
  | (true, e) => q / 10 ^ e

/-- Python float(s) on plain decimal and exponent forms: optional
surrounding whitespace, optional sign, decimal mantissa, optional
e / E exponent.  Returns `none` exactly where float() raises ValueError
(the inf / nan word forms and underscore separators, which the
repository never feeds it, are not modelled and parse as `none`). -/
def pyFloat (cs0 : List Char) : Option ℚ :=
  let cs := stripChars cs0
  let (sign, body) : ℚ × List Char :=
    match cs with
    | '+' :: r => (1, r)
    | '-' :: r => (-1, r)
    | r => (1, r)
  let mant := body.takeWhile (fun c => !(c == 'e' || c == 'E'))
  let expPart := body.dropWhile (fun c => !(c == 'e' || c == 'E'))
  match expPart with
  | [] => (parseMantissa mant).map (sign * ·)
  | _ :: er =>
    match parseMantissa mant, parseExponent er with
    | some m, some e => some (sign * scalePow10 m e)
    | _, _ => none

/-- clean_currency: missing input stays missing; otherwise the string form
has dollar signs and commas removed and whitespace stripped, then a float
parse whose failure yields missing (np.nan), never an exception.  A numeric
input round-trips through str() unchanged. -/
def clean_currency : PyScalar → Option ℚ
  | .null => none
  | .num q => some q
  | .str s => pyFloat (stripChars (removeChar ',' (removeChar '$' s.toList)))

/-! ### Program Categorizer (categorize_program, data_processing.py lines 54-98) -/

/-- categorize_program: missing name is Unknown, otherwise the lowercased
name is matched against the ordered keyword rules of the source, first
match winning, with Other as the fallback. -/
def categorize_program (programName : Option String) : String :=
  match programName with
  | none => "Unknown"
  | some name =>
    let l := lowerChars name.toList
    if strContains l "mental health" || strContains l "pediatric mental" then
      "Mental Health"
    else if strContains l "maternal" || strContains l "healthy start" then
      "Maternal Health"
    else if strContains l "home" && strContains l "visit" then
      "Home Visiting"
    else if strContains l "cshcn" || strContains l "special" then
      "Special Healthcare Needs"
    else if strContains l "training" || strContains l "leadership" || strContains l "education" then
      "Training & Education"
    else if strContains l "emsc" || strContains l "emergency" then
      "Emergency Services"
    else if strContains l "screening" || strContains l "newborn" then
      "Screening Programs"
    else
      "Other"

/-! ### State Aggregator (get_state_summary, data_processing.py lines 101-125) -/

/-- One StateSummary output row, after the column flattening and the drop
of the duplicate grant_count_check column: geography code, sum of amounts,
mean of amounts (NaN when the group has no non-missing amount), and the
count aggregation of the amount column. -/
structure SummaryRow where
  state : String
  total_funding : ℚ
  avg_grant_size : Option ℚ
  num_grants : ℕ
deriving DecidableEq, Repr

/-- Stable insertion of a into a le-sorted list: a is placed before the
first element x with le a x, so with a reflexive le, a lands before every
element tied with it. -/
def insortBy {α : Type} (le : α → α → Bool) (a : α) : List α → List α
  | [] => [a]
  | x :: xs => if le a x then a :: x :: xs else x :: insortBy le a xs

/-- Insertion sort by le, ONE admissible implementation of the pandas
sorts of the source: groupby sorts its distinct keys ascending, and
sort_values(ascending=False) sorts by the key with the default numpy
quicksort, which guarantees the key order and nothing about ties (the
introsort partitioning reorders equal-key rows once an array exceeds its
insertion-sort cutoff).  Only tie-insensitive consequences of this model
(membership, permutation, ordering by the sort key) are guarantees of
the program; the tie order this executable model produces is one
arbitrary resolution of the unspecified cases. -/
def sortBy {α : Type} (le : α → α → Bool) (l : List α) : List α :=
  l.foldr (insortBy le) []

/-- The distinct values of the state column (first-occurrence membership;
order is irrelevant because the keys are sorted afterwards). -/
def distinctStates (rows : List GrantRow) : List String :=
  (rows.map GrantRow.state).dedup

/-- The rows of one groupby group. -/
def groupRows (rows : List GrantRow) (s : String) : List GrantRow :=
  rows.filter (fun r => r.state = s)

/-- The non-missing normalized amounts of a list of rows, in order: the
values the pandas sum / mean / count aggregations operate on, NaN skipped. -/
def presentAmounts (rows : List GrantRow) : List ℚ :=
  rows.filterMap GrantRow.amount

/-- The aggregated summary row of one geography key: sum of non-missing
amounts (0.0 for an all-missing group, as pandas sum), mean of non-missing
amounts (NaN for an all-missing group), count of non-missing amounts
(pandas count skips NaN).  The Grant Number count that the source computes
into grant_count_check is dropped immediately and does not appear. -/
def aggState (rows : List GrantRow) (s : String) : SummaryRow :=
  let amts := presentAmounts (groupRows rows s)
  { state := s
    total_funding := amts.sum
    avg_grant_size :=
      if amts.length = 0 then none else some (amts.sum / (amts.length : ℚ))
    num_grants := amts.length }

/-- Lexicographic code-point comparison of char lists: the Python string
order, strict.  (The byte-level core String order does not reduce in the
kernel, so the order is defined on the character lists.) -/
def charListLt : List Char → List Char → Bool
  | _, [] => false
  | [], _ :: _ => true
  | a :: s, b :: t => if a < b then true else if b < a then false else charListLt s t

/-- Strict ascending comparison of geography codes. -/
def strLt (a b : String) : Bool := charListLt a.toList b.toList

/-- Comparison for the ascending groupby key sort (string ≤ as the
negation of the flipped strict order). -/
def strLe (a b : String) : Bool := !(strLt b a)

/-- Comparison for sort_values on total_funding with ascending=False. -/
def byTotalDesc (a b : SummaryRow) : Bool :=
  decide (b.total_funding ≤ a.total_funding)

/-- get_state_summary on the structured rows: group by the state column
(distinct keys, sorted ascending as groupby does), aggregate each group,
then sort the summary descending by total_funding (stable). -/
def get_state_summary (rows : List GrantRow) : List SummaryRow :=
  let keys := sortBy strLe (distinctStates rows)
  sortBy byTotalDesc (keys.map (aggState rows))

/-- What sort_values with its default unstable quicksort guarantees of
the value returned by get_state_summary: the output is SOME permutation
of the one-row-per-geography aggregation that is ordered descending by
total_funding.  The relative order of rows tied on total_funding is not
specified, so every such permutation is an admissible program output. -/
def stateSummaryAdmissible (rows : List GrantRow) (out : List SummaryRow) : Prop :=
  out.Perm ((sortBy strLe (distinctStates rows)).map (aggState rows)) ∧
  out.Pairwise (fun a b => b.total_funding ≤ a.total_funding)

/-- A missing-column lookup failure: Python KeyError.  No other failure
condition (in particular no SchemaMismatch class) exists in the source. -/
inductive PdError where
  | keyError (col : String)
deriving DecidableEq, Repr

/-- A grant DataFrame for claims about column presence: the schema (list
of column names) together with the structured data of the fixed columns
that carry it. -/
structure GrantFrame where
  columns : List String
  rows : List GrantRow
deriving Repr

/-- get_state_summary at DataFrame level: groupby(state_col) raises
KeyError for an absent state column, and the aggregation dict then looks
up amount_col and the hard-coded Grant Number column, in source order,
raising KeyError for whichever is absent, before the structured
aggregation produces the result.  The source calls it with
state_col = State and amount_col = Awardee Amount by default. -/
def get_state_summary_df (df : GrantFrame) (state_col amount_col : String) :
    Except PdError (List SummaryRow) :=
  if state_col ∉ df.columns then .error (.keyError state_col)
  else if amount_col ∉ df.columns then .error (.keyError amount_col)
  else if "Grant Number" ∉ df.columns then .error (.keyError "Grant Number")
  else .ok (get_state_summary df.rows)

/-! ### Outlier Detector (identify_outliers, data_processing.py lines 128-155) -/

/-- series.mean() over the values (callers guard the empty case). -/
def meanQ (xs : List ℚ) : ℚ := xs.sum / (xs.length : ℚ)

/-- Sum of squared deviations from the mean. -/
def sqDev (xs : List ℚ) : ℚ := (xs.map (fun x => (x - meanQ xs) ^ 2)).sum

/-- The square of pandas Series.std(): sample variance with ddof = 1,
meaningful for lists of length at least 2. -/
def svarQ (xs : List ℚ) : ℚ := sqDev xs / ((xs.length : ℚ) - 1)

/-- The zscore branch: np.abs((series - mean) / std) > threshold, embedded
square-free.  With fewer than two values std is NaN (ddof = 1) and every
NaN comparison is false; with zero variance each entry is 0 / 0 = NaN,
also comparing false; otherwise z = |x - m| / sqrt v is nonnegative, so it
exceeds a negative threshold always and a nonnegative threshold t exactly
when (x - m) ^ 2 > t ^ 2 * v. -/
def zscoreFlags (xs : List ℚ) (threshold : ℚ) : List Bool :=
  if xs.length ≤ 1 then xs.map (fun _ => false)
  else
    let m := meanQ xs
    let v := svarQ xs
    xs.map (fun x =>
      if v = 0 then false
      else if threshold < 0 then true
      else decide (threshold ^ 2 * v < (x - m) ^ 2))

/-- Modelled from the spec sentence for claim C5 (comparison definition,
not a translation of the source): flag values whose absolute deviation
from the mean, divided by the population standard deviation (ddof = 0),
exceeds the threshold; embedded square-free exactly like zscoreFlags. -/
def zscoreSpecFlags (xs : List ℚ) (threshold : ℚ) : List Bool :=
  if xs.length = 0 then []
  else
    let m := meanQ xs
    let v := sqDev xs / (xs.length : ℚ)
    xs.map (fun x =>
      if v = 0 then false
      else if threshold < 0 then true
      else decide (threshold ^ 2 * v < (x - m) ^ 2))

/-- series.quantile(q): the pandas linear-interpolation quantile of a
nonempty list. -/
def quantileQ (xs : List ℚ) (q : ℚ) : ℚ :=
  let s := sortBy (fun a b => decide (a ≤ b)) xs
  let pos := q * ((xs.length : ℚ) - 1)
  let i := pos.floor.toNat
  let frac := pos - (pos.floor : ℚ)
  let lo := s.getD i 0
  let hi := s.getD (i + 1) lo
  lo + frac * (hi - lo)

/-- The iqr branch: quartile bounds widened by threshold times the
interquartile range; values strictly outside are flagged. -/
def iqrFlags (xs : List ℚ) (threshold : ℚ) : List Bool :=
  let q1 := quantileQ xs (1 / 4)
  let q3 := quantileQ xs (3 / 4)
  let iqr := q3 - q1
  let lower := q1 - threshold * iqr
  let upper := q3 + threshold * iqr
  xs.map (fun x => decide (x < lower) || decide (upper < x))

/-- identify_outliers: dispatch on the method string; anything other than
iqr and zscore raises ValueError, modelled as the error branch. -/
def identify_outliers (series : List ℚ) (method : String) (threshold : ℚ) :
    Except String (List Bool) :=
  if method = "iqr" then .ok (iqrFlags series threshold)
  else if method = "zscore" then .ok (zscoreFlags series threshold)
  else .error "Method must be iqr or zscore"

/-- Decidable equality of Except results, for concrete evaluations. -/
instance {ε α : Type} [DecidableEq ε] [DecidableEq α] : DecidableEq (Except ε α) := fun x y =>
  match x, y with
  | .ok a, .ok b => if h : a = b then .isTrue (by rw [h]) else .isFalse (by simp [h])
  | .error a, .error b => if h : a = b then .isTrue (by rw [h]) else .isFalse (by simp [h])
  | .ok _, .error _ => .isFalse (by simp)
  | .error _, .ok _ => .isFalse (by simp)

/-! ### Dataset Merger (merge_health_and_funding, api_fetcher.py lines 124-149) -/

/-- One health-outcome row keyed by state.  Only the indicator column the
source consults (infant_mortality_rate, itself nullable) is carried. -/
structure HealthRow where
  state : String
  infant_mortality_rate : Option ℚ
deriving DecidableEq, Repr

/-- The right table of the merge: whether its schema has the
infant_mortality_rate column, and its rows. -/
structure HealthTable where
  hasMortalityCol : Bool
  rows : List HealthRow
deriving Repr

/-- The output rows one left row contributes to a left merge: one row per
matching right row, or a single row with a missing right side when no key
matches. -/
def leftMergeOne {α β : Type} (keyA : α → String) (keyB : β → String)
    (right : List β) (a : α) : List (α × Option β) :=
  match right.filter (fun b => keyB b = keyA a) with
  | [] => [(a, none)]
  | hs => hs.map (fun b => (a, some b))

/-- pandas merge(how=left) on a string key: every left row produces one
output row per matching right row, or a single row with a missing right
side when no key matches. -/
def leftMerge {α β : Type} (keyA : α → String) (keyB : β → String)
    (left : List α) (right : List β) : List (α × Option β) :=
  left.flatMap (leftMergeOne keyA keyB right)

/-- merge_health_and_funding: left-merge the funding table with the health
table on the state key, then run the unmatched-record detection, which
looks up the infant_mortality_rate column of the merged frame and raises
KeyError when the right schema (and hence the merged schema, the funding
side not having it) lacks that column; the detection itself only prints a
warning and the merged frame is returned unchanged. -/
def merge_health_and_funding {α : Type} (keyA : α → String)
    (funding : List α) (health : HealthTable) :
    Except PdError (List (α × Option HealthRow)) :=
  let merged := leftMerge keyA HealthRow.state funding health.rows
  if health.hasMortalityCol then .ok merged
  else .error (.keyError "infant_mortality_rate")

end MCHD

namespace MCHD

/-! ### Order facts for the character-list comparison -/

theorem charListLt_asymm : ∀ a b : List Char,
    charListLt a b = true → charListLt b a = false := by
  intro a
  induction a with
  | nil =>
    intro b h
    cases b with
    | nil => simp [charListLt] at h
    | cons y t => simp [charListLt]
  | cons x s ih =>
    intro b h
    cases b with
    | nil => simp [charListLt] at h
    | cons y t =>
      by_cases hxy : x < y
      · simp [charListLt, hxy, lt_asymm hxy]
      · by_cases hyx : y < x
        · simp [charListLt, hxy, hyx] at h
        · simp only [charListLt, if_neg hxy, if_neg hyx] at h
          simp only [charListLt, if_neg hyx, if_neg hxy]
          exact ih t h

theorem charListLt_connex : ∀ a b : List Char, a ≠ b →
    charListLt a b = true ∨ charListLt b a = true := by
  intro a
  induction a with
  | nil =>
    intro b h
    cases b with
    | nil => exact absurd rfl h
    | cons y t => left; simp [charListLt]
  | cons x s ih =>
    intro b h
    cases b with
    | nil => right; simp [charListLt]
    | cons y t =>
      by_cases hxy : x < y
      · left; simp [charListLt, hxy]
      · by_cases hyx : y < x
        · right; simp [charListLt, hyx]
        · have hxyeq : x = y := le_antisymm (not_lt.mp hyx) (not_lt.mp hxy)
          subst hxyeq
          have hst : s ≠ t := by
            intro he
            exact h (by rw [he])
          rcases ih t hst with h1 | h1
          · left
            simpa only [charListLt, if_neg hxy, if_neg hyx] using h1
          · right
            simpa only [charListLt, if_neg hxy, if_neg hyx] using h1

theorem charListLt_trans : ∀ a b c : List Char,
    charListLt a b = true → charListLt b c = true → charListLt a c = true := by
  intro a
  induction a with
  | nil =>
    intro b c hab hbc
    cases c with
    | nil =>
      cases b with
      | nil => exact hab
      | cons y t => simp [charListLt] at hbc
    | cons z u => simp [charListLt]
  | cons x s ih =>
    intro b c hab hbc
    cases b with
    | nil => simp [charListLt] at hab
    | cons y t =>
      cases c with
      | nil => simp [charListLt] at hbc
      | cons z u =>
        by_cases hxy : x < y
        · by_cases hyz : y < z
          · have hxz : x < z := lt_trans hxy hyz
            simp [charListLt, hxz]
          · by_cases hzy : z < y
            · simp [charListLt, hxy, hyz, hzy] at hbc
            · have : y = z := le_antisymm (not_lt.mp hzy) (not_lt.mp hyz)
              subst this
              simp [charListLt, hxy]
        · by_cases hyx : y < x
          · simp [charListLt, hxy, hyx] at hab
          · have hxyeq : x = y := le_antisymm (not_lt.mp hyx) (not_lt.mp hxy)
            subst hxyeq
            simp only [charListLt, if_neg hxy, if_neg hyx] at hab
            by_cases hxz : x < z
            · simp [charListLt, hxz]
            · by_cases hzx : z < x
              · simp [charListLt, hxz, hzx] at hbc
              · simp only [charListLt, if_neg hxz, if_neg hzx] at hbc ⊢
                exact ih t u hab hbc

theorem strLt_irrefl (s : String) : strLt s s = false := by
  by_contra h
  have h1 : strLt s s = true := by
    cases h2 : strLt s s with
    | false => exact absurd h2 h
    | true => rfl
  have h3 : strLt s s = false := charListLt_asymm _ _ h1
  rw [h1] at h3
  exact Bool.noConfusion h3

theorem strLt_connex {a b : String} (h : a ≠ b) :
    strLt a b = true ∨ strLt b a = true := by
  refine charListLt_connex _ _ ?_
  intro he
  apply h
  cases a with
  | mk da =>
    cases b with
    | mk db =>
      have hd : da = db := he
      rw [hd]

theorem strLe_total (a b : String) : strLe a b = true ∨ strLe b a = true := by
  by_cases h : strLt b a = true
  · right
    have h2 : strLt a b = false := charListLt_asymm _ _ h
    simp [strLe, h2]
  · left
    have h2 : strLt b a = false := by
      cases h3 : strLt b a with
      | false => rfl
      | true => exact absurd h3 h
    simp [strLe, h2]

theorem strLe_trans (x y z : String) (h1 : strLe x y = true) (h2 : strLe y z = true) :
    strLe x z = true := by
  simp only [strLe, Bool.not_eq_true'] at h1 h2 ⊢
  by_cases hyz : y = z
  · rw [← hyz]
    exact h1
  · cases hzx : strLt z x with
    | false => rfl
    | true =>
      rcases strLt_connex hyz with hlt | hlt
      · have h3 : strLt y x = true := charListLt_trans _ _ _ hlt hzx
        rw [h3] at h1
        exact h1
      · rw [hlt] at h2
        exact h2

theorem byTotalDesc_trans (x y z : SummaryRow)
    (h1 : byTotalDesc x y = true) (h2 : byTotalDesc y z = true) :
    byTotalDesc x z = true := by
  simp only [byTotalDesc, decide_eq_true_eq] at h1 h2 ⊢
  exact le_trans h2 h1

theorem byTotalDesc_total (x y : SummaryRow) :
    byTotalDesc x y = true ∨ byTotalDesc y x = true := by
  simp only [byTotalDesc, decide_eq_true_eq]
  exact le_total _ _

/-! ### The stable sort: permutation and ordering lemmas -/

theorem insortBy_perm {α : Type} (le : α → α → Bool) (a : α) :
    ∀ l : List α, (insortBy le a l).Perm (a :: l) := by
  intro l
  induction l with
  | nil => simp [insortBy]
  | cons x xs ih =>
    by_cases h : le a x = true
    · simp [insortBy, h]
    · simp only [insortBy, if_neg h]
      exact (ih.cons x).trans (List.Perm.swap a x xs)

theorem sortBy_perm {α : Type} (le : α → α → Bool) (l : List α) :
    (sortBy le l).Perm l := by
  induction l with
  | nil => simp [sortBy]
  | cons a t ih =>
    have he : sortBy le (a :: t) = insortBy le a (sortBy le t) := rfl
    rw [he]
    exact (insortBy_perm le a (sortBy le t)).trans (ih.cons a)

theorem insortBy_pairwise {α : Type} {le : α → α → Bool} {P : α → α → Prop}
    (htrans : ∀ x y z, le x y = true → le y z = true → le x z = true)
    (htot : ∀ x y, le x y = true ∨ le y x = true) (a : α) :
    ∀ acc : List α,
      acc.Pairwise (fun x y => le x y = true ∧ (le y x = true → P x y)) →
      (∀ x ∈ acc, P a x) →
      (insortBy le a acc).Pairwise (fun x y => le x y = true ∧ (le y x = true → P x y)) := by
  intro acc
  induction acc with
  | nil =>
    intro _ _
    simp [insortBy]
  | cons x xs ih =>
    intro hacc hP
    rcases List.pairwise_cons.mp hacc with ⟨hx, hxs⟩
    by_cases h : le a x = true
    · simp only [insortBy, if_pos h]
      refine List.pairwise_cons.mpr ⟨?_, hacc⟩
      intro y hy
      rcases List.mem_cons.mp hy with rfl | hy2
      · exact ⟨h, fun _ => hP y (List.mem_cons_self _ _)⟩
      · rcases hx y hy2 with ⟨hxy, _⟩
        exact ⟨htrans a x y h hxy, fun _ => hP y (List.mem_cons_of_mem _ hy2)⟩
    · simp only [insortBy, if_neg h]
      refine List.pairwise_cons.mpr
        ⟨?_, ih hxs (fun z hz => hP z (List.mem_cons_of_mem _ hz))⟩
      intro y hy
      have hy3 : y = a ∨ y ∈ xs := by
        have := (insortBy_perm le a xs).mem_iff.mp hy
        simpa using this
      rcases hy3 with rfl | hy4
      · have hxa : le x y = true := by
          rcases htot x y with h1 | h2
          · exact h1
          · exact absurd h2 h
        exact ⟨hxa, fun hax => absurd hax h⟩
      · exact hx y hy4

theorem sortBy_pairwise {α : Type} {le : α → α → Bool} {P : α → α → Prop}
    (htrans : ∀ x y z, le x y = true → le y z = true → le x z = true)
    (htot : ∀ x y, le x y = true ∨ le y x = true) :
    ∀ l : List α, l.Pairwise P →
      (sortBy le l).Pairwise (fun x y => le x y = true ∧ (le y x = true → P x y)) := by
  intro l
  induction l with
  | nil =>
    intro _
    simp [sortBy]
  | cons a t ih =>
    intro h
    rcases List.pairwise_cons.mp h with ⟨ha, ht⟩
    have he : sortBy le (a :: t) = insortBy le a (sortBy le t) := rfl
    rw [he]
    exact insortBy_pairwise htrans htot a (sortBy le t) (ih ht)
      (fun x hx => ha x ((sortBy_perm le t).mem_iff.mp hx))

/-! ### Facts about get_state_summary -/

theorem mem_get_state_summary {rows : List GrantRow} {r : SummaryRow}
    (h : r ∈ get_state_summary rows) :
    ∃ s, s ∈ rows.map GrantRow.state ∧ r = aggState rows s := by
  simp only [get_state_summary] at h
  have h1 := (sortBy_perm byTotalDesc _).mem_iff.mp h
  rcases List.mem_map.mp h1 with ⟨s, hs, rfl⟩
  have hs2 : s ∈ distinctStates rows := (sortBy_perm strLe _).mem_iff.mp hs
  simp only [distinctStates] at hs2
  exact ⟨s, List.mem_dedup.mp hs2, rfl⟩

theorem length_filterMap_eq_length_filter {α β : Type} (f : α → Option β) :
    ∀ l : List α, (l.filterMap f).length = (l.filter (fun x => (f x).isSome)).length := by
  intro l
  induction l with
  | nil => rfl
  | cons a t ih =>
    cases hfa : f a with
    | none => simp [List.filterMap_cons, List.filter_cons, hfa, ih]
    | some b => simp [List.filterMap_cons, List.filter_cons, hfa, ih]

/-- C1 counterexample: one geography whose single source row has a missing
normalized amount; the aggregator emits num_grants 0 for it, not the row
count 1, because the pandas count aggregation skips NaN. -/
theorem c1_counterexample :
    get_state_summary
        [{ grantNumber := "G3", state := "TX", programName := none, amount := none }] =
      [{ state := "TX", total_funding := 0, avg_grant_size := none, num_grants := 0 }] ∧
    ([{ grantNumber := "G3", state := "TX", programName := none, amount := none }] :
        List GrantRow).length = 1 := by
  decide

/-- C1 (amended): for every input table and StateSummary row it produces,
num_grants counts only the source rows of that geography whose normalized
amount is non-missing (the pandas count aggregation skips NaN, so rows
with missing amounts are excluded from the count exactly as they are from
the sum and mean), and total_funding is the sum of the non-missing
amounts of that geography. -/
theorem c1_num_grants_counts_nonmissing (rows : List GrantRow) (r : SummaryRow)
    (h : r ∈ get_state_summary rows) :
    r.num_grants =
      (rows.filter (fun g => g.amount.isSome && decide (g.state = r.state))).length ∧
    r.total_funding =
      ((rows.filter (fun g => decide (g.state = r.state))).filterMap GrantRow.amount).sum := by
  rcases mem_get_state_summary h with ⟨s, _, rfl⟩
  simp only [aggState]
  constructor
  · simp only [presentAmounts, groupRows, length_filterMap_eq_length_filter,
      List.filter_filter]
  · simp only [presentAmounts, groupRows]

/-- C1 witness: a geography with one present and one missing amount; the
count is 1 and the total is the present amount. -/
theorem c1_witness :
    ((⟨"CA", 5, some 5, 1⟩ : SummaryRow) ∈ get_state_summary
        [⟨"G1", "CA", none, some 5⟩, ⟨"G2", "CA", none, none⟩]) ∧
    ((1 : ℕ) =
        (([⟨"G1", "CA", none, some 5⟩, ⟨"G2", "CA", none, none⟩] : List GrantRow).filter
          (fun g => g.amount.isSome && decide (g.state = "CA"))).length ∧
      (5 : ℚ) =
        ((([⟨"G1", "CA", none, some 5⟩, ⟨"G2", "CA", none, none⟩] : List GrantRow).filter
          (fun g => decide (g.state = "CA"))).filterMap GrantRow.amount).sum) :=
  ⟨by decide,
    c1_num_grants_counts_nonmissing
      [⟨"G1", "CA", none, some 5⟩, ⟨"G2", "CA", none, none⟩]
      ⟨"CA", 5, some 5, 1⟩ (by decide)⟩

/-- C4: every produced StateSummary row with a positive grant count and at
least one non-missing amount in its geography group has a present mean,
and total_funding equals that mean times num_grants exactly, hence within
every positive tolerance. -/
theorem c4_total_eq_avg_times_count (rows : List GrantRow) (r : SummaryRow)
    (h : r ∈ get_state_summary rows) (hn : 0 < r.num_grants)
    (hsome : ∃ g ∈ rows, g.state = r.state ∧ g.amount.isSome = true)
    (eps : ℚ) (heps : 0 < eps) :
    ∃ a : ℚ, r.avg_grant_size = some a ∧
      |r.total_funding - a * (r.num_grants : ℚ)| < eps := by
  rcases mem_get_state_summary h with ⟨s, _, rfl⟩
  simp only [aggState] at hn ⊢
  set amts := presentAmounts (groupRows rows s) with hdef
  have hlen : ¬ (amts.length = 0) := by omega
  refine ⟨amts.sum / (amts.length : ℚ), ?_, ?_⟩
  · rw [if_neg hlen]
  · have hne : ((amts.length : ℕ) : ℚ) ≠ 0 := by
      exact_mod_cast hlen
    rw [div_mul_cancel₀ _ hne, sub_self, abs_zero]
    exact heps

/-- C4 witness: one geography with a single present amount, tolerance 1. -/
theorem c4_witness :
    ((⟨"CA", 4, some 4, 1⟩ : SummaryRow) ∈ get_state_summary
        [⟨"G1", "CA", none, some 4⟩]) ∧
    (0 < (1 : ℕ)) ∧
    (∃ g ∈ ([⟨"G1", "CA", none, some 4⟩] : List GrantRow),
      g.state = "CA" ∧ g.amount.isSome = true) ∧
    (0 < (1 : ℚ)) ∧
    ∃ a : ℚ, some (4 : ℚ) = some a ∧ |(4 : ℚ) - a * ((1 : ℕ) : ℚ)| < 1 :=
  ⟨by decide, by decide, by decide, by decide,
    c4_total_eq_avg_times_count [⟨"G1", "CA", none, some 4⟩] ⟨"CA", 4, some 4, 1⟩
      (by decide) (by decide) (by decide) 1 (by decide)⟩

/-- C6 counterexample: seventeen geographies, more than the numpy
insertion-sort cutoff of the default quicksort, all tied on
total_funding.  The geography-DESCENDING arrangement of the seventeen
summary rows is an admissible output of the final sort_values — it is a
permutation of the aggregated rows and is (vacuously) descending by
total_funding — yet its ties are not in geography-ascending order, so
the deterministic ascending tie-break the claim states is not a
guarantee of the program. -/
theorem c6_counterexample :
    stateSummaryAdmissible
      [⟨"G", "SA", none, some 1⟩, ⟨"G", "SB", none, some 1⟩,
        ⟨"G", "SC", none, some 1⟩, ⟨"G", "SD", none, some 1⟩,
        ⟨"G", "SE", none, some 1⟩, ⟨"G", "SF", none, some 1⟩,
        ⟨"G", "SG", none, some 1⟩, ⟨"G", "SH", none, some 1⟩,
        ⟨"G", "SI", none, some 1⟩, ⟨"G", "SJ", none, some 1⟩,
        ⟨"G", "SK", none, some 1⟩, ⟨"G", "SL", none, some 1⟩,
        ⟨"G", "SM", none, some 1⟩, ⟨"G", "SN", none, some 1⟩,
        ⟨"G", "SO", none, some 1⟩, ⟨"G", "SP", none, some 1⟩,
        ⟨"G", "SQ", none, some 1⟩]
      [⟨"SQ", 1, some 1, 1⟩, ⟨"SP", 1, some 1, 1⟩, ⟨"SO", 1, some 1, 1⟩,
        ⟨"SN", 1, some 1, 1⟩, ⟨"SM", 1, some 1, 1⟩, ⟨"SL", 1, some 1, 1⟩,
        ⟨"SK", 1, some 1, 1⟩, ⟨"SJ", 1, some 1, 1⟩, ⟨"SI", 1, some 1, 1⟩,
        ⟨"SH", 1, some 1, 1⟩, ⟨"SG", 1, some 1, 1⟩, ⟨"SF", 1, some 1, 1⟩,
        ⟨"SE", 1, some 1, 1⟩, ⟨"SD", 1, some 1, 1⟩, ⟨"SC", 1, some 1, 1⟩,
        ⟨"SB", 1, some 1, 1⟩, ⟨"SA", 1, some 1, 1⟩] ∧
    ¬ ([⟨"SQ", 1, some 1, 1⟩, ⟨"SP", 1, some 1, 1⟩, ⟨"SO", 1, some 1, 1⟩,
        ⟨"SN", 1, some 1, 1⟩, ⟨"SM", 1, some 1, 1⟩, ⟨"SL", 1, some 1, 1⟩,
        ⟨"SK", 1, some 1, 1⟩, ⟨"SJ", 1, some 1, 1⟩, ⟨"SI", 1, some 1, 1⟩,
        ⟨"SH", 1, some 1, 1⟩, ⟨"SG", 1, some 1, 1⟩, ⟨"SF", 1, some 1, 1⟩,
        ⟨"SE", 1, some 1, 1⟩, ⟨"SD", 1, some 1, 1⟩, ⟨"SC", 1, some 1, 1⟩,
        ⟨"SB", 1, some 1, 1⟩, ⟨"SA", 1, some 1, 1⟩] :
          List SummaryRow).Pairwise (fun a b =>
        b.total_funding ≤ a.total_funding ∧
        (a.total_funding = b.total_funding → strLt a.state b.state = true)) := by
  refine ⟨⟨by decide, by decide⟩, by decide⟩

/-- C6 (amended): every output of the State Aggregator is a permutation
of the one-summary-row-per-geography aggregation and is ordered
descending by total_funding, and the executable model realizes one such
admissible output; the relative order of rows tied on total_funding is
not part of the contract, because the default quicksort of sort_values
is unstable, so no deterministic geography-ascending tie-break is
guaranteed. -/
theorem c6_descending_and_permutation (rows : List GrantRow) :
    stateSummaryAdmissible rows (get_state_summary rows) := by
  have htriv : ∀ l : List SummaryRow, l.Pairwise (fun _ _ => True) := by
    intro l
    induction l with
    | nil => exact List.Pairwise.nil
    | cons a t ih => exact List.pairwise_cons.mpr ⟨fun _ _ => trivial, ih⟩
  constructor
  · simp only [get_state_summary]
    exact sortBy_perm byTotalDesc _
  · have hfinal := sortBy_pairwise byTotalDesc_trans byTotalDesc_total
      ((sortBy strLe (distinctStates rows)).map (aggState rows)) (htriv _)
    simp only [get_state_summary]
    refine hfinal.imp ?_
    rintro a b ⟨h1, _⟩
    simpa only [byTotalDesc, decide_eq_true_eq] using h1

/-! ### Facts about the Grant Number column (claim C9) -/

theorem aggState_map_grantNumber (rows : List GrantRow) (f : GrantRow → String)
    (s : String) :
    aggState (rows.map (fun g => { g with grantNumber := f g })) s =
      aggState rows s := by
  have h1 : groupRows (rows.map (fun g => { g with grantNumber := f g })) s =
      (groupRows rows s).map (fun g => { g with grantNumber := f g }) := by
    simp only [groupRows, List.filter_map]
    rfl
  have h2 : presentAmounts
      ((groupRows rows s).map (fun g => { g with grantNumber := f g })) =
      presentAmounts (groupRows rows s) := by
    simp only [presentAmounts, List.filterMap_map]
    rfl
  simp only [aggState, h1, h2]

theorem get_state_summary_map_grantNumber (rows : List GrantRow)
    (f : GrantRow → String) :
    get_state_summary (rows.map (fun g => { g with grantNumber := f g })) =
      get_state_summary rows := by
  have hstates : (rows.map (fun g => { g with grantNumber := f g })).map
      GrantRow.state = rows.map GrantRow.state := by
    rw [List.map_map]
    rfl
  simp only [get_state_summary, distinctStates, hstates]
  congr 1
  exact List.map_congr_left (fun s _ => aggState_map_grantNumber rows f s)

/-- C9: the aggregation dict of get_state_summary hard-codes the Grant
Number column, so a table with the state and amount columns but no Grant
Number column fails with the missing-column KeyError, even though the
content of that column never influences the returned summary (rewriting
every grant number leaves the summary unchanged). -/
theorem c9_grant_number_undocumented_precondition (df : GrantFrame)
    (hs : "State" ∈ df.columns) (ha : "Awardee Amount" ∈ df.columns)
    (hg : "Grant Number" ∉ df.columns) :
    get_state_summary_df df "State" "Awardee Amount" =
      .error (.keyError "Grant Number") ∧
    ∀ f : GrantRow → String,
      get_state_summary (df.rows.map (fun g => { g with grantNumber := f g })) =
        get_state_summary df.rows := by
  constructor
  · simp only [get_state_summary_df, if_neg (not_not_intro hs),
      if_neg (not_not_intro ha), if_pos hg]
  · intro f
    exact get_state_summary_map_grantNumber df.rows f

/-- C9 witness: a frame with only the State and Awardee Amount columns. -/
theorem c9_witness :
    get_state_summary_df ⟨["State", "Awardee Amount"], []⟩ "State" "Awardee Amount" =
      .error (.keyError "Grant Number") ∧
    ∀ f : GrantRow → String,
      get_state_summary (([] : List GrantRow).map (fun g => { g with grantNumber := f g })) =
        get_state_summary ([] : List GrantRow) :=
  c9_grant_number_undocumented_precondition ⟨["State", "Awardee Amount"], []⟩
    (by decide) (by decide) (by decide)

/-! ### Currency Normalizer and Program Categorizer claims -/

/-- C8: clean_currency turns missing input into the missing marker,
parses a dollar-and-comma currency string to its numeric value, and turns
an unparseable string into the missing marker instead of raising; the
embedding is a total function into an optional value, so no input
produces an exception. -/
theorem c8_clean_currency_examples :
    clean_currency .null = none ∧
    clean_currency (.str "$1,234,567") = some 1234567 ∧
    clean_currency (.str "abc") = none := by decide

/-- C7 counterexample: a name containing both maternal and training, as
well as mental health, categorizes by the earlier mental-health rule, so
the unconditional claim that maternal-and-training names map to Maternal
Health fails. -/
theorem c7_counterexample :
    categorize_program (some "Mental Health Maternal Training") = "Mental Health" ∧
    "Mental Health" ≠ "Maternal Health" := by decide

/-- C7 (amended): the rules run in source order with the first match
winning: a missing name is Unknown; a name containing maternal and
training and not matching the earlier mental-health rule group resolves
to Maternal Health (rule 3 precedes rule 6); a name containing home
without visit and matching no other rule group resolves to Other. -/
theorem c7_rule_order :
    categorize_program none = "Unknown" ∧
    (∀ n : String,
      strContains (lowerChars n.toList) "maternal" = true →
      strContains (lowerChars n.toList) "training" = true →
      strContains (lowerChars n.toList) "mental health" = false →
      strContains (lowerChars n.toList) "pediatric mental" = false →
      categorize_program (some n) = "Maternal Health") ∧
    (∀ n : String,
      strContains (lowerChars n.toList) "home" = true →
      strContains (lowerChars n.toList) "visit" = false →
      strContains (lowerChars n.toList) "mental health" = false →
      strContains (lowerChars n.toList) "pediatric mental" = false →
      strContains (lowerChars n.toList) "maternal" = false →
      strContains (lowerChars n.toList) "healthy start" = false →
      strContains (lowerChars n.toList) "cshcn" = false →
      strContains (lowerChars n.toList) "special" = false →
      strContains (lowerChars n.toList) "training" = false →
      strContains (lowerChars n.toList) "leadership" = false →
      strContains (lowerChars n.toList) "education" = false →
      strContains (lowerChars n.toList) "emsc" = false →
      strContains (lowerChars n.toList) "emergency" = false →
      strContains (lowerChars n.toList) "screening" = false →
      strContains (lowerChars n.toList) "newborn" = false →
      categorize_program (some n) = "Other") := by
  refine ⟨rfl, ?_, ?_⟩
  · intro n h1 h2 h3 h4
    simp only [String.toList] at h1 h2 h3 h4
    simp [categorize_program, h1, h2, h3, h4]
  · intro n h1 h2 h3 h4 h5 h6 h7 h8 h9 h10 h11 h12 h13 h14 h15
    simp only [String.toList] at h1 h2 h3 h4 h5 h6 h7 h8 h9 h10 h11 h12 h13 h14 h15
    simp [categorize_program, h1, h2, h3, h4, h5, h6, h7, h8, h9, h10, h11,
      h12, h13, h14, h15]

/-- C7 witness: a maternal-and-training name with no mental-health match,
and a home-without-visit name matching no other rule. -/
theorem c7_witness :
    categorize_program (some "Maternal Skills Training") = "Maternal Health" ∧
    categorize_program (some "Home Based Care") = "Other" :=
  ⟨c7_rule_order.2.1 "Maternal Skills Training"
      (by decide) (by decide) (by decide) (by decide),
    c7_rule_order.2.2 "Home Based Care"
      (by decide) (by decide) (by decide) (by decide) (by decide) (by decide)
      (by decide) (by decide) (by decide) (by decide) (by decide) (by decide)
      (by decide) (by decide) (by decide)⟩

/-! ### Dataset Merger claims -/

/-- C3 counterexample: with a right table lacking the
infant_mortality_rate column the merge fails with the missing-column
KeyError of the pandas lookup itself, which is exactly the unchecked
missing-column crash the claim says is replaced by a distinct
SchemaMismatch condition; no SchemaMismatch condition exists in the
source. -/
theorem c3_counterexample :
    merge_health_and_funding SummaryRow.state
        [⟨"CA", 1, some 1, 1⟩] ⟨false, []⟩ =
      .error (.keyError "infant_mortality_rate") := by decide

/-- C3 (amended): for every funding table and every right table whose
schema lacks the infant_mortality_rate column, the unmatched-row
detection step raises the missing-column KeyError of the pandas column
lookup (catchable as that exception, but not as any distinct
SchemaMismatch condition, which the source never defines). -/
theorem c3_missing_indicator_raises_keyerror {α : Type} (keyA : α → String)
    (funding : List α) (health : HealthTable)
    (h : health.hasMortalityCol = false) :
    merge_health_and_funding keyA funding health =
      .error (.keyError "infant_mortality_rate") := by
  simp [merge_health_and_funding, h]

/-- C3 witness: the empty funding table against a schema without the
indicator column. -/
theorem c3_witness :
    merge_health_and_funding SummaryRow.state ([] : List SummaryRow) ⟨false, []⟩ =
      .error (.keyError "infant_mortality_rate") :=
  c3_missing_indicator_raises_keyerror SummaryRow.state [] ⟨false, []⟩ rfl

theorem filter_eq_find_toList {β : Type} (key : β → String) (s : String) :
    ∀ l : List β, (l.map key).Nodup →
      l.filter (fun b => decide (key b = s)) =
        (l.find? (fun b => decide (key b = s))).toList := by
  intro l
  induction l with
  | nil =>
    intro _
    rfl
  | cons b t ih =>
    intro hn
    rw [List.map_cons, List.nodup_cons] at hn
    rcases hn with ⟨hnotin, hnd⟩
    by_cases hb : key b = s
    · have hfilter : t.filter (fun x => decide (key x = s)) = [] := by
        rw [List.filter_eq_nil_iff]
        intro x hx hdx
        rw [decide_eq_true_eq] at hdx
        exact hnotin (List.mem_map.mpr ⟨x, hx, by rw [hdx, hb]⟩)
      simp [List.filter_cons, List.find?_cons, hb, hfilter]
    · simp [List.filter_cons, List.find?_cons, hb, ih hnd]

theorem flatMap_eq_map_of_singleton {α β : Type} (g : α → List β) (h : α → β)
    (hg : ∀ a, g a = [h a]) : ∀ l : List α, l.flatMap g = l.map h := by
  intro l
  induction l with
  | nil => rfl
  | cons a t ih => simp [List.flatMap_cons, hg, ih]

/-- C2 counterexample: a right table with a duplicated join key makes the
left join emit one output row per match, so a single left row appears
twice and the output is longer than the left table. -/
theorem c2_counterexample :
    merge_health_and_funding SummaryRow.state [⟨"CA", 1, some 1, 1⟩]
        ⟨true, [⟨"CA", some 5⟩, ⟨"CA", some 6⟩]⟩ =
      .ok [(⟨"CA", 1, some 1, 1⟩, some ⟨"CA", some 5⟩),
        (⟨"CA", 1, some 1, 1⟩, some ⟨"CA", some 6⟩)] ∧
    ([(⟨"CA", 1, some 1, 1⟩, some ⟨"CA", some 5⟩),
      (⟨"CA", 1, some 1, 1⟩, some ⟨"CA", some 6⟩)] :
        List (SummaryRow × Option HealthRow)).length ≠
      ([⟨"CA", 1, some 1, 1⟩] : List SummaryRow).length := by decide

/-- C2 (amended): when the right table carries the indicator column and
its join keys are pairwise distinct (as in the one-row-per-state health
table the repository builds), the merge returns every left row exactly
once and in order, paired with its unique matching right row, or with a
missing right side when no key matches; in particular the output length
equals the left length, including for an empty right table. -/
theorem c2_left_join_preserves_left {α : Type} (keyA : α → String)
    (funding : List α) (health : HealthTable)
    (hcol : health.hasMortalityCol = true)
    (hkeys : (health.rows.map HealthRow.state).Nodup) :
    merge_health_and_funding keyA funding health =
      .ok (funding.map (fun a =>
        (a, health.rows.find? (fun b => decide (b.state = keyA a))))) ∧
    (leftMerge keyA HealthRow.state funding health.rows).length = funding.length := by
  have hmain : leftMerge keyA HealthRow.state funding health.rows =
      funding.map (fun a =>
        (a, health.rows.find? (fun b => decide (b.state = keyA a)))) := by
    have hsingle : ∀ a : α, leftMergeOne keyA HealthRow.state health.rows a =
        [(a, health.rows.find? (fun b => decide (b.state = keyA a)))] := by
      intro a
      simp only [leftMergeOne]
      rw [filter_eq_find_toList HealthRow.state (keyA a) health.rows hkeys]
      cases health.rows.find? (fun b => decide (b.state = keyA a)) with
      | none => rfl
      | some b => rfl
    exact flatMap_eq_map_of_singleton _ _ hsingle funding
  constructor
  · simp [merge_health_and_funding, hcol, hmain]
  · rw [hmain, List.length_map]

/-- C2 witness: a two-row left table against a one-row right table with
distinct keys; the matched row gets its health row, the unmatched row a
missing right side, and the output length equals the left length. -/
theorem c2_witness :
    ((⟨true, [⟨"CA", some 3⟩]⟩ : HealthTable).hasMortalityCol = true) ∧
    ((([⟨"CA", some 3⟩] : List HealthRow).map HealthRow.state).Nodup) ∧
    (merge_health_and_funding SummaryRow.state
        [⟨"CA", 2, some 2, 1⟩, ⟨"ZZ", 0, none, 0⟩] ⟨true, [⟨"CA", some 3⟩]⟩ =
      .ok [(⟨"CA", 2, some 2, 1⟩, some ⟨"CA", some 3⟩), (⟨"ZZ", 0, none, 0⟩, none)] ∧
      (leftMerge SummaryRow.state HealthRow.state
        [⟨"CA", 2, some 2, 1⟩, ⟨"ZZ", 0, none, 0⟩] [⟨"CA", some 3⟩]).length = 2) :=
  ⟨rfl, by decide,
    c2_left_join_preserves_left SummaryRow.state
      [⟨"CA", 2, some 2, 1⟩, ⟨"ZZ", 0, none, 0⟩] ⟨true, [⟨"CA", some 3⟩]⟩
      rfl (by decide)⟩

/-! ### Outlier Detector claims -/

/-- C10: on a nonempty all-equal series the zscore method raises no error
and flags no element: with a single element the ddof = 1 standard
deviation is NaN, and otherwise the variance is zero so every z-score is
the NaN 0 / 0; NaN comparisons are false against any threshold. -/
theorem c10_constant_series_no_outliers (xs : List ℚ) (c : ℚ) (t : ℚ)
    (hne : xs ≠ []) (hall : ∀ x ∈ xs, x = c) :
    identify_outliers xs "zscore" t = .ok (xs.map (fun _ => false)) := by
  have hz : identify_outliers xs "zscore" t = .ok (zscoreFlags xs t) := by
    simp [identify_outliers]
  rw [hz]
  by_cases hlen : xs.length ≤ 1
  · simp only [zscoreFlags, if_pos hlen]
  · have hlen0 : (xs.length : ℚ) ≠ 0 := by
      have h0 : xs.length ≠ 0 := by
        intro h0
        exact hne (List.length_eq_zero.mp h0)
      exact_mod_cast h0
    have hmean : meanQ xs = c := by
      have hsum : xs.sum = xs.length • c := List.sum_eq_card_nsmul xs c hall
      rw [meanQ, hsum, nsmul_eq_mul, mul_div_cancel_left₀ _ hlen0]
    have hvar : svarQ xs = 0 := by
      have hsq : sqDev xs = 0 := by
        have hz0 : ∀ y ∈ xs.map (fun x => (x - meanQ xs) ^ 2), y = (0 : ℚ) := by
          intro y hy
          rcases List.mem_map.mp hy with ⟨x, hx, rfl⟩
          rw [hall x hx, hmean, sub_self]
          ring
        rw [sqDev, List.sum_eq_card_nsmul _ 0 hz0, smul_zero]
      rw [svarQ, hsq, zero_div]
    simp only [zscoreFlags, if_neg hlen]
    simp [hvar]

/-- C10 witness: the constant two-element series. -/
theorem c10_witness :
    (([5, 5] : List ℚ) ≠ []) ∧
    (∀ x ∈ ([5, 5] : List ℚ), x = 5) ∧
    identify_outliers [5, 5] "zscore" 3 = .ok [false, false] :=
  ⟨by decide, by decide,
    c10_constant_series_no_outliers [5, 5] 5 3 (by decide) (by decide)⟩

/-- C5 counterexample: on the series [0, 2] with threshold 4/5 the code,
which divides by the pandas sample standard deviation (ddof = 1), flags
nothing, while the population-standard-deviation rule stated by the claim
flags both elements. -/
theorem c5_counterexample :
    zscoreFlags [0, 2] (4 / 5) = [false, false] ∧
    zscoreSpecFlags [0, 2] (4 / 5) = [true, true] ∧
    identify_outliers [0, 2] "zscore" (4 / 5) = .ok [false, false] := by decide

theorem sqDev_nonneg (xs : List ℚ) : 0 ≤ sqDev xs := by
  apply List.sum_nonneg
  intro y hy
  rcases List.mem_map.mp hy with ⟨x, _, rfl⟩
  positivity

theorem svarQ_nonneg (xs : List ℚ) (hn : 2 ≤ xs.length) : 0 ≤ svarQ xs := by
  apply div_nonneg (sqDev_nonneg xs)
  have h2 : (2 : ℚ) ≤ (xs.length : ℚ) := by exact_mod_cast hn
  linarith

/-- C5 (amended): for a series of at least two values with nonzero sample
variance and a nonnegative threshold, the zscore method flags exactly the
elements whose absolute deviation from the mean exceeds the threshold
times the SAMPLE standard deviation (pandas Series.std with ddof = 1,
the square root of svarQ), not the population standard deviation the
claim names. -/
theorem c5_zscore_flags_by_sample_std (xs : List ℚ) (t : ℚ) (i : ℕ)
    (hi : i < xs.length) (hn : 2 ≤ xs.length) (ht : 0 ≤ t)
    (hv : svarQ xs ≠ 0) :
    identify_outliers xs "zscore" t = .ok (zscoreFlags xs t) ∧
    ((zscoreFlags xs t).getD i false = true ↔
      (t : ℝ) * Real.sqrt ((svarQ xs : ℝ)) <
        |((xs.getD i 0 : ℚ) : ℝ) - ((meanQ xs : ℝ))|) := by
  constructor
  · simp [identify_outliers]
  · have hbranch : zscoreFlags xs t = xs.map (fun x =>
        if svarQ xs = 0 then false
        else if t < 0 then true
        else decide (t ^ 2 * svarQ xs < (x - meanQ xs) ^ 2)) := by
      simp only [zscoreFlags, if_neg (by omega : ¬ xs.length ≤ 1)]
    rw [hbranch, List.getD_eq_getElem?_getD, List.getElem?_map,
      List.getElem?_eq_getElem hi]
    rw [Option.map_some', Option.getD_some]
    rw [List.getD_eq_getElem?_getD, List.getElem?_eq_getElem hi,
      Option.getD_some]
    rw [if_neg hv, if_neg (not_lt.mpr ht), decide_eq_true_eq]
    have hv0 : (0 : ℝ) < (svarQ xs : ℝ) := by
      have h1 : (0 : ℚ) ≤ svarQ xs := svarQ_nonneg xs hn
      have h2 : (0 : ℚ) < svarQ xs := lt_of_le_of_ne h1 (Ne.symm hv)
      exact_mod_cast h2
    have ht0 : (0 : ℝ) ≤ (t : ℝ) := by exact_mod_cast ht
    have key : ∀ d : ℝ,
        ((t : ℝ) ^ 2 * (svarQ xs : ℝ) < d ^ 2 ↔
          (t : ℝ) * Real.sqrt ((svarQ xs : ℝ)) < |d|) := by
      intro d
      rw [← Real.sqrt_lt_sqrt_iff (by positivity),
        Real.sqrt_mul (by positivity), Real.sqrt_sq ht0,
        Real.sqrt_sq_eq_abs]
    constructor
    · intro h
      have hc : (t : ℝ) ^ 2 * (svarQ xs : ℝ) <
          (((xs[i] : ℚ) : ℝ) - (meanQ xs : ℝ)) ^ 2 := by
        exact_mod_cast h
      exact (key _).mp hc
    · intro h
      have hc := (key (((xs[i] : ℚ) : ℝ) - (meanQ xs : ℝ))).mpr h
      exact_mod_cast hc

/-- C5 witness: the series [0, 2] with threshold 1/2 at index 0. -/
theorem c5_witness :
    identify_outliers [0, 2] "zscore" (1 / 2) = .ok (zscoreFlags [0, 2] (1 / 2)) ∧
    ((zscoreFlags [0, 2] (1 / 2)).getD 0 false = true ↔
      ((1 / 2 : ℚ) : ℝ) * Real.sqrt ((svarQ [0, 2] : ℝ)) <
        |((([0, 2] : List ℚ).getD 0 0 : ℚ) : ℝ) - ((meanQ [0, 2] : ℝ))|) :=
  c5_zscore_flags_by_sample_std [0, 2] (1 / 2) 0 (by decide) (by decide)
    (by decide) (by decide)

end MCHD
end RatReducible
